import Mathlib

/-!
Verification of the chatlab/murkrow packages.

The repository's visible source is the two package entry files
`src/chatlab/__init__.py` and `src/murkrow/__init__.py`.  The modules
they pull in (`conversation`, `messaging`, `registry`, `display`) belong
to the repository but are not under `src/`, so the `Message`, tagging-function,
`FunctionRegistry` and `Conversation`/`submit` behaviour below is modelled
from the specification; the namespace surface (`__all__`, module-level
bindings, the `Session` forwarding subclass) is embedded from the two
source files directly.
-/

namespace Chatlab

/-- Modelled from the spec: the role tag of a Message
(`system | user | assistant | function_call | function_result | narration`),
implemented in the missing `chatlab/messaging.py`. -/
inductive Role where
  | system
  | user
  | assistant
  | function_call
  | function_result
  | narration
deriving DecidableEq, Repr

/-- Modelled from the spec: an immutable value pairing a role tag with textual
content; for `function_call` the content is the argument payload and `fname`
the called function's name, for `function_result` the content is the return
value serialized to text and `fname` the originating function's name.
Implemented in the missing `chatlab/messaging.py`. -/
structure Message where
  role : Role
  content : String
  fname : Option String
deriving DecidableEq, Repr

/-- Modelled from the spec: tagging function `system` from the missing
`chatlab/messaging.py`. -/
def system (t : String) : Message := ⟨Role.system, t, none⟩

/-- Modelled from the spec: tagging function `user` from the missing
`chatlab/messaging.py`. -/
def user (t : String) : Message := ⟨Role.user, t, none⟩

/-- Modelled from the spec: tagging function `assistant` from the missing
`chatlab/messaging.py`. -/
def assistant (t : String) : Message := ⟨Role.assistant, t, none⟩

/-- Modelled from the spec: `human` is a legacy alias of `user` in the missing
`chatlab/messaging.py`. -/
def human (t : String) : Message := user t

/-- Modelled from the spec: `ai` is a legacy alias of `assistant` in the
missing `chatlab/messaging.py`. -/
def ai (t : String) : Message := assistant t

/-- Modelled from the spec: tagging function `narrate` from the missing
`chatlab/messaging.py`. -/
def narrate (t : String) : Message := ⟨Role.narration, t, none⟩

/-- Modelled from the spec: tagging function `function_result` from the
missing `chatlab/messaging.py`; carries the originating function's name and
its return value serialized to text. -/
def function_result (name value : String) : Message :=
  ⟨Role.function_result, value, some name⟩

/-- Modelled from the spec: tagging function `assistant_function_call` from
the missing `chatlab/messaging.py`; carries the called function's name and
the argument payload. -/
def assistant_function_call (name args : String) : Message :=
  ⟨Role.function_call, args, some name⟩

/-- Modelled from the spec: a remote-model reply is either a plain assistant
text or a function-call directive (function name + arguments). -/
inductive Reply where
  | text (s : String)
  | fcall (name args : String)
deriving DecidableEq, Repr

/-- Modelled from the spec: outcome of `FunctionRegistry.resolve` — a value,
an UnknownFunction condition, or an ExecutionError condition which may be a
timeout/fatal one. Implemented in the missing `chatlab/registry.py`. -/
inductive ResolveOutcome where
  | ok (value : String)
  | unknownFunction
  | execError (fatal : Bool)
deriving DecidableEq, Repr

/-- Modelled from the spec: the FunctionRegistry collaborator, reduced to its
`resolve(name, args)` interface as used by `Conversation`. Implemented in the
missing `chatlab/registry.py`. -/
structure FunctionRegistry where
  resolve : String → String → ResolveOutcome

/-- Modelled from the spec: the failure conditions `submit` can surface to
its caller. -/
inductive SubmitError where
  | Misconfiguration
  | RoundLimitExceeded
  | FatalExecution
deriving DecidableEq, Repr

/-- Modelled from the spec: a Conversation owns an ordered sequence of
Messages, an optional FunctionRegistry, and a configured maximum number of
resolution rounds. Implemented in the missing `chatlab/conversation.py`. -/
structure Conversation where
  messages : List Message
  registry : Option FunctionRegistry
  maxRounds : Nat

/-- Modelled from the spec: `Conversation.new(seed_messages...)` initializes
the message sequence with the given Messages in order and does not contact
the remote model. -/
def conversationNew (seeds : List Message) (reg : Option FunctionRegistry)
    (maxRounds : Nat) : Conversation :=
  ⟨seeds, reg, maxRounds⟩

/-- Modelled from the spec: the text stored in a `function_result` Message
that encodes a recoverable resolution failure, so the model can react. -/
def encodeFailure : ResolveOutcome → String
  | ResolveOutcome.unknownFunction => "error: unknown function"
  | ResolveOutcome.execError _ => "error: execution failed"
  | ResolveOutcome.ok v => v

/-- Modelled from the spec: the resolution loop of `submit`.  Each round sends
the entire ordered message sequence to the remote model client; a plain text
reply is appended and returned (terminal); a function-call directive is
appended and resolved via the registry (failing with Misconfiguration when
none is attached), the function_result is appended and the loop repeats.  The
fuel argument is the remaining number of allowed rounds; exhausting it fails
with RoundLimitExceeded.  Returns the final message sequence, the trace of
message sequences sent to the remote client, and the outcome. -/
def resolveLoop (client : List Message → Reply) (reg : Option FunctionRegistry) :
    Nat → List Message → List Message × List (List Message) × Except SubmitError Message
  | 0, msgs => (msgs, [], Except.error SubmitError.RoundLimitExceeded)
  | fuel+1, msgs =>
    match client msgs with
    | Reply.text s =>
        (msgs ++ [assistant s], [msgs], Except.ok (assistant s))
    | Reply.fcall name args =>
        let withCall := msgs ++ [assistant_function_call name args]
        match reg with
        | none => (withCall, [msgs], Except.error SubmitError.Misconfiguration)
        | some r =>
          match r.resolve name args with
          | ResolveOutcome.ok v =>
              let next := resolveLoop client reg fuel
                (withCall ++ [function_result name v])
              (next.1, msgs :: next.2.1, next.2.2)
          | ResolveOutcome.unknownFunction =>
              let next := resolveLoop client reg fuel
                (withCall ++ [function_result name
                  (encodeFailure ResolveOutcome.unknownFunction)])
              (next.1, msgs :: next.2.1, next.2.2)
          | ResolveOutcome.execError fatal =>
              if fatal then
                (withCall, [msgs], Except.error SubmitError.FatalExecution)
              else
                let next := resolveLoop client reg fuel
                  (withCall ++ [function_result name
                    (encodeFailure (ResolveOutcome.execError false))])
                (next.1, msgs :: next.2.1, next.2.2)

/-- Modelled from the spec: `submit(text)` appends `user(text)` to the
sequence and enters the resolution loop with the configured round limit.
Returns the updated Conversation, the trace of message sequences sent to the
remote client, and the outcome. -/
def submit (client : List Message → Reply) (c : Conversation) (text : String) :
    Conversation × List (List Message) × Except SubmitError Message :=
  let started := resolveLoop client c.registry c.maxRounds (c.messages ++ [user text])
  ({ c with messages := started.1 }, started.2.1, started.2.2)

/-- Modelled from the spec: `render` delegates each Message's content to the
display adapter, with no side effects on state. -/
def renderMessage (m : Message) : String := m.content

/-- Modelled from the spec: `render() -> sequence of formatted text`. -/
def render (c : Conversation) : List String :=
  c.messages.map renderMessage

/-- An operation a caller can perform on a Conversation after construction. -/
inductive Op where
  | submitOp (text : String)
  | renderOp
deriving Repr

/-- Apply one operation to a Conversation (render has no effect on state). -/
def applyOp (client : List Message → Reply) (c : Conversation) : Op → Conversation
  | Op.submitOp t => (submit client c t).1
  | Op.renderOp => c

/-- Apply a sequence of operations to a Conversation in order. -/
def applyOps (client : List Message → Reply) (c : Conversation) : List Op → Conversation
  | [] => c
  | op :: rest => applyOps client (applyOp client c op) rest

/-- Helper for the pairing invariant: scans a message list carrying the
previous message; every `function_result` message must directly follow a
`function_call` message with the same function name. -/
def pairedFrom : Option Message → List Message → Bool
  | _, [] => true
  | prev, m :: rest =>
    (if m.role = Role.function_result then
        match prev with
        | some p => decide (p.role = Role.function_call ∧ p.fname = m.fname)
        | none => false
      else true)
    && pairedFrom (some m) rest

/-- Every `function_result` Message in the sequence directly follows a
`function_call` Message carrying the same function name. -/
def resultsPaired (msgs : List Message) : Bool :=
  pairedFrom none msgs

/-- The last message of a scanned list, or the carried previous message when
the list is empty; the state `pairedFrom` threads through an append. -/
def lastCarry (prev : Option Message) : List Message → Option Message
  | [] => prev
  | m :: rest => lastCarry (some m) rest

/-- Result of constructing a `Session`: whether the deprecation notice was
emitted, and the underlying Conversation value. -/
structure DeprecationResult where
  warned : Bool
  conv : Conversation

/-- Embedded from `src/chatlab/__init__.py` lines 29-42: `Session.__init__`
runs under the `@deprecated` decorator (which emits the deprecation notice)
and forwards all positional and keyword arguments unchanged to
`Conversation.__init__` via `super().__init__(*args, **kwargs)`; the argument
list is abstracted as a value of an arbitrary type `α` and Conversation's own
initializer as a function out of `α`, since Session never inspects the
arguments. -/
def sessionInit {α : Type} (conversationInit : α → Conversation) (args : α) :
    DeprecationResult :=
  ⟨true, conversationInit args⟩

/-- Embedded from `src/chatlab/__init__.py` lines 45-59: the `__all__`
list of the chatlab package. -/
def chatlabAll : List String :=
  ["Markdown", "human", "ai", "narrate", "system", "user", "assistant",
   "assistant_function_call", "function_result", "models", "Session",
   "Conversation", "FunctionRegistry"]

/-- Embedded from `src/chatlab/__init__.py`: every name bound at module level
in chatlab's `__init__` (imports, the `Session` class definition, and the
dunder assignments). -/
def chatlabBound : List String :=
  ["__author__", "__email__", "deprecated", "models", "__version__",
   "Conversation", "Markdown", "ai", "assistant", "assistant_function_call",
   "function_result", "human", "narrate", "system", "user",
   "FunctionRegistry", "Session", "__all__"]

/-- Embedded from `src/chatlab/__init__.py`: the public names chatlab imports
from its implementation modules, paired with the module each comes from. -/
def chatlabImports : List (String × String) :=
  [("models", "models"), ("Conversation", "conversation"),
   ("Markdown", "display"), ("ai", "messaging"), ("assistant", "messaging"),
   ("assistant_function_call", "messaging"), ("function_result", "messaging"),
   ("human", "messaging"), ("narrate", "messaging"), ("system", "messaging"),
   ("user", "messaging"), ("FunctionRegistry", "registry")]

/-- Embedded from `src/murkrow/__init__.py` line 13: the `__all__` list of
the murkrow package. -/
def murkrowAll : List String :=
  ["Markdown", "human", "ai", "narrate", "system", "user", "assistant"]

/-- Embedded from `src/murkrow/__init__.py` lines 10-11: the names murkrow
imports from its implementation modules, paired with the module each comes
from. -/
def murkrowImports : List (String × String) :=
  [("Markdown", "display"), ("ai", "messaging"), ("human", "messaging"),
   ("system", "messaging")]

/-- Embedded from `src/murkrow/__init__.py`: every name bound at module level
in murkrow's `__init__` (imports and the dunder assignments). -/
def murkrowBound : List String :=
  ["__author__", "__email__", "__version__", "Markdown", "ai", "human",
   "system", "__all__"]

/-- Stub remote client used to exercise `submit` on a plain-text reply. -/
def clientPlainText : List Message → Reply := fun _ => Reply.text "hi"

/-- Concrete Conversation with one seed message and round limit 1. -/
def convSeedOne : Conversation := ⟨[system "seed"], none, 1⟩

/-- Stub remote client that always issues a function-call directive. -/
def clientAlwaysCall : List Message → Reply := fun _ => Reply.fcall "f" "a"

/-- Registry whose resolution always succeeds with the value `"r"`. -/
def regAlwaysOk : FunctionRegistry := ⟨fun _ _ => ResolveOutcome.ok "r"⟩

/-- Concrete Conversation with the always-ok registry and round limit 2. -/
def convTwoRounds : Conversation := ⟨[], some regAlwaysOk, 2⟩

/-- Stub remote client that asks for the unregistered function `mystery`. -/
def clientMystery : List Message → Reply := fun _ => Reply.fcall "mystery" ""

/-- Concrete Conversation with no registry attached and round limit 1. -/
def convNoReg : Conversation := ⟨[system "s"], none, 1⟩

/-- Stub remote client asking for the function `g`. -/
def clientCallG : List Message → Reply := fun _ => Reply.fcall "g" "b"

/-- Registry whose resolution always fails with UnknownFunction. -/
def regUnknown : FunctionRegistry := ⟨fun _ _ => ResolveOutcome.unknownFunction⟩

/-- Stub remote client that first asks for `add(a=2,b=2)` and, once the call
and its result are in the transcript, replies with plain text. -/
def clientOneCall : List Message → Reply :=
  fun msgs => if msgs.length ≤ 2 then Reply.fcall "add" "a=2,b=2" else Reply.text "4"

/-- Registry resolving every call to the value `"4"`. -/
def regAdd : FunctionRegistry := ⟨fun _ _ => ResolveOutcome.ok "4"⟩

/-- Concrete Conversation with the `regAdd` registry and round limit 3. -/
def convPaired : Conversation := ⟨[system "terse"], some regAdd, 3⟩

lemma resolveLoop_extends (client : List Message → Reply)
    (reg : Option FunctionRegistry) :
    ∀ (fuel : Nat) (msgs : List Message),
      ∃ t, (resolveLoop client reg fuel msgs).1 = msgs ++ t := by
  intro fuel
  induction fuel with
  | zero => exact fun msgs => ⟨[], by simp [resolveLoop]⟩
  | succ n ih =>
    intro msgs
    cases hc : client msgs with
    | text s => exact ⟨[assistant s], by simp [resolveLoop, hc]⟩
    | fcall name args =>
      cases hreg : reg with
      | none =>
        exact ⟨[assistant_function_call name args],
          by simp [resolveLoop, hc, hreg]⟩
      | some r =>
        subst hreg
        cases hr : r.resolve name args with
        | ok v =>
          obtain ⟨t, ht⟩ := ih
            (msgs ++ [assistant_function_call name args, function_result name v])
          exact ⟨[assistant_function_call name args] ++ [function_result name v] ++ t,
            by simp only [resolveLoop, hc, hr]
               simpa [List.append_assoc] using ht⟩
        | unknownFunction =>
          obtain ⟨t, ht⟩ := ih
            (msgs ++ [assistant_function_call name args,
              function_result name (encodeFailure ResolveOutcome.unknownFunction)])
          exact ⟨[assistant_function_call name args]
              ++ [function_result name (encodeFailure ResolveOutcome.unknownFunction)] ++ t,
            by simp only [resolveLoop, hc, hr]
               simpa [List.append_assoc] using ht⟩
        | execError fatal =>
          cases fatal with
          | true =>
            exact ⟨[assistant_function_call name args],
              by simp [resolveLoop, hc, hr]⟩
          | false =>
            obtain ⟨t, ht⟩ := ih
              (msgs ++ [assistant_function_call name args,
                function_result name (encodeFailure (ResolveOutcome.execError false))])
            exact ⟨[assistant_function_call name args]
                ++ [function_result name (encodeFailure (ResolveOutcome.execError false))] ++ t,
              by simp only [resolveLoop, hc, hr]
                 simpa [List.append_assoc] using ht⟩

lemma submit_extends (client : List Message → Reply) (c : Conversation) (x : String) :
    ∃ t, (submit client c x).1.messages = c.messages ++ t := by
  obtain ⟨t, ht⟩ := resolveLoop_extends client c.registry c.maxRounds (c.messages ++ [user x])
  exact ⟨[user x] ++ t, by simp [submit, ht]⟩

lemma applyOp_extends (client : List Message → Reply) (c : Conversation) (op : Op) :
    ∃ t, (applyOp client c op).messages = c.messages ++ t := by
  cases op with
  | submitOp x => exact submit_extends client c x
  | renderOp => exact ⟨[], by simp [applyOp]⟩

lemma applyOps_extends (client : List Message → Reply) :
    ∀ (ops : List Op) (c : Conversation),
      ∃ t, (applyOps client c ops).messages = c.messages ++ t := by
  intro ops
  induction ops with
  | nil => exact fun c => ⟨[], by simp [applyOps]⟩
  | cons op rest ih =>
    intro c
    obtain ⟨t1, h1⟩ := applyOp_extends client c op
    obtain ⟨t2, h2⟩ := ih (applyOp client c op)
    exact ⟨t1 ++ t2, by simp [applyOps, h2, h1]⟩

lemma resolveLoop_trace_head (client : List Message → Reply)
    (reg : Option FunctionRegistry) (n : Nat) (msgs : List Message) :
    ((resolveLoop client reg (n+1) msgs).2.1).head? = some msgs := by
  cases hc : client msgs with
  | text s => simp [resolveLoop, hc]
  | fcall name args =>
    cases reg with
    | none => simp [resolveLoop, hc]
    | some r =>
      cases hr : r.resolve name args with
      | ok v => simp [resolveLoop, hc, hr]
      | unknownFunction => simp [resolveLoop, hc, hr]
      | execError fatal => cases fatal <;> simp [resolveLoop, hc, hr]

lemma resolveLoop_trace_length_le (client : List Message → Reply)
    (reg : Option FunctionRegistry) :
    ∀ (fuel : Nat) (msgs : List Message),
      (resolveLoop client reg fuel msgs).2.1.length ≤ fuel := by
  intro fuel
  induction fuel with
  | zero => intro msgs; simp [resolveLoop]
  | succ n ih =>
    intro msgs
    cases hc : client msgs with
    | text s => simp [resolveLoop, hc]
    | fcall name args =>
      cases reg with
      | none => simp [resolveLoop, hc]
      | some r =>
        cases hr : r.resolve name args with
        | ok v =>
          simpa [resolveLoop, hc, hr, Nat.succ_le_succ_iff] using ih _
        | unknownFunction =>
          simpa [resolveLoop, hc, hr, Nat.succ_le_succ_iff] using ih _
        | execError fatal =>
          cases fatal with
          | true => simp [resolveLoop, hc, hr]
          | false =>
            simpa [resolveLoop, hc, hr, Nat.succ_le_succ_iff] using ih _

lemma resolveLoop_all_fcall (client : List Message → Reply) (r : FunctionRegistry)
    (hcl : ∀ msgs, ∃ n a, client msgs = Reply.fcall n a)
    (hnf : ∀ n a, r.resolve n a ≠ ResolveOutcome.execError true) :
    ∀ (fuel : Nat) (msgs : List Message),
      (resolveLoop client (some r) fuel msgs).2.2
          = Except.error SubmitError.RoundLimitExceeded ∧
        (resolveLoop client (some r) fuel msgs).2.1.length = fuel := by
  intro fuel
  induction fuel with
  | zero => intro msgs; simp [resolveLoop]
  | succ n ih =>
    intro msgs
    obtain ⟨nm, a, hc⟩ := hcl msgs
    cases hr : r.resolve nm a with
    | ok v =>
      simpa [resolveLoop, hc, hr] using ih _
    | unknownFunction =>
      simpa [resolveLoop, hc, hr] using ih _
    | execError fatal =>
      cases fatal with
      | true => exact absurd hr (hnf nm a)
      | false => simpa [resolveLoop, hc, hr] using ih _

/-- C1: `submit(x)` appends exactly one user Message carrying `x` before any
interaction with the remote client: the first (and hence every earliest)
message sequence handed to the client is the prior history followed by
`user x`, whose length is the prior length plus one, with all prior messages
unchanged in place and order. -/
theorem submit_appends_one_user_before_model (client : List Message → Reply)
    (c : Conversation) (x : String) (h : 0 < c.maxRounds) :
    (submit client c x).2.1.head? = some (c.messages ++ [user x]) ∧
    (c.messages ++ [user x]).length = c.messages.length + 1 ∧
    (c.messages ++ [user x]).take c.messages.length = c.messages ∧
    (user x).role = Role.user ∧ (user x).content = x := by
  refine ⟨?_, by simp, List.take_left _ _, rfl, rfl⟩
  cases hm : c.maxRounds with
  | zero => rw [hm] at h; exact absurd h (by simp)
  | succ n =>
    simp only [submit, hm]
    exact resolveLoop_trace_head client c.registry n (c.messages ++ [user x])

/-- C1 witness: on a Conversation seeded with one system message, a stubbed
plain-text client and round limit 1, `submit` hands the client exactly the
seed plus the one appended user message. -/
theorem submit_appends_one_user_witness :
    0 < convSeedOne.maxRounds ∧
    ((submit clientPlainText convSeedOne "q").2.1.head?
        = some (convSeedOne.messages ++ [user "q"]) ∧
     (convSeedOne.messages ++ [user "q"]).length = convSeedOne.messages.length + 1 ∧
     (convSeedOne.messages ++ [user "q"]).take convSeedOne.messages.length
        = convSeedOne.messages ∧
     (user "q").role = Role.user ∧ (user "q").content = "q") :=
  ⟨by decide,
   submit_appends_one_user_before_model clientPlainText convSeedOne "q" (by decide)⟩

/-- C2: the message sequence is append-only under every sequence of
operations (submit calls and render calls) after construction with any
seeds: every message present before the operations is still present at the
same position afterwards. -/
theorem conversation_messages_append_only (client : List Message → Reply)
    (c : Conversation) (ops : List Op) :
    (applyOps client c ops).messages.take c.messages.length = c.messages := by
  obtain ⟨t, ht⟩ := applyOps_extends client ops c
  rw [ht]
  exact List.take_left _ _

/-- C3: the resolution loop always terminates within the configured maximum
number of rounds (the trace of remote-client interactions is never longer
than `maxRounds`), and when the model keeps issuing function-call directives
against a registry that never fails fatally, `submit` fails with
RoundLimitExceeded after exactly `maxRounds` rounds. -/
theorem submit_resolution_loop_bounded (client : List Message → Reply)
    (c : Conversation) (x : String) :
    (submit client c x).2.1.length ≤ c.maxRounds ∧
    (∀ r, c.registry = some r →
      (∀ msgs, ∃ n a, client msgs = Reply.fcall n a) →
      (∀ n a, r.resolve n a ≠ ResolveOutcome.execError true) →
      (submit client c x).2.2 = Except.error SubmitError.RoundLimitExceeded ∧
      (submit client c x).2.1.length = c.maxRounds) := by
  constructor
  · simp only [submit]
    exact resolveLoop_trace_length_le client c.registry c.maxRounds _
  · intro r hreg hcl hnf
    simp only [submit, hreg]
    exact resolveLoop_all_fcall client r hcl hnf c.maxRounds _

/-- C3 witness: with a client that always issues function-call directives,
an always-succeeding registry and round limit 2, `submit` fails with
RoundLimitExceeded after exactly 2 remote-client rounds. -/
theorem submit_resolution_loop_bounded_witness :
    (submit clientAlwaysCall convTwoRounds "go").2.2
        = Except.error SubmitError.RoundLimitExceeded ∧
    (submit clientAlwaysCall convTwoRounds "go").2.1.length
        = convTwoRounds.maxRounds :=
  (submit_resolution_loop_bounded clientAlwaysCall convTwoRounds "go").2
    regAlwaysOk rfl (fun _ => ⟨"f", "a", rfl⟩)
    (fun n a h => by simp [regAlwaysOk] at h)

/-- C6: each tagging function returns a Message whose role matches the
function used (these are pure constructors), and the alias pairs are
role-equivalent: `human` produces the same Message as `user` and `ai` the
same Message as `assistant`. -/
theorem tagging_functions_role_correct (t n a v : String) :
    (system t).role = Role.system ∧
    (user t).role = Role.user ∧
    (assistant t).role = Role.assistant ∧
    (human t).role = Role.user ∧
    (ai t).role = Role.assistant ∧
    (narrate t).role = Role.narration ∧
    (function_result n v).role = Role.function_result ∧
    (assistant_function_call n a).role = Role.function_call ∧
    human t = user t ∧
    ai t = assistant t :=
  ⟨rfl, rfl, rfl, rfl, rfl, rfl, rfl, rfl, rfl, rfl⟩

/-- C8: constructing a Session behaves identically at call time to
constructing a Conversation with the same arguments, apart from emitting the
deprecation notice: `sessionInit` hands the argument value to Conversation's
initializer unchanged and adds nothing else. -/
theorem session_forwards_to_conversation {α : Type}
    (conversationInit : α → Conversation) (args : α) :
    (sessionInit conversationInit args).conv = conversationInit args ∧
    (sessionInit conversationInit args).warned = true :=
  ⟨rfl, rfl⟩

/-- C10: every one of the thirteen names listed in chatlab's `__all__` is
bound at module level in chatlab's `__init__`, so a wildcard import of the
package's public surface succeeds and exposes exactly those thirteen
distinct names. -/
theorem chatlab_all_names_bound :
    chatlabAll.all (fun n => chatlabBound.contains n) = true ∧
    chatlabAll.length = 13 ∧ chatlabAll.Nodup := by
  decide

/-- C9 counterexample: `Conversation` is published by chatlab's public
surface but is not bound anywhere in murkrow's module namespace (nor even
listed in murkrow's `__all__`), so murkrow does not re-export every public
chatlab symbol. -/
theorem murkrow_reexport_counterexample :
    "Conversation" ∈ chatlabAll ∧ "Conversation" ∉ murkrowBound ∧
    "Conversation" ∉ murkrowAll ∧
    chatlabAll.all (fun n => murkrowBound.contains n) = false := by
  decide

/-- C9 (amended): murkrow re-exports only a strict subset of chatlab's
public surface — the four names it actually imports (`Markdown`, `ai`,
`human`, `system`) come from the same implementation modules chatlab imports
them from, so those bindings are equivalent symbols; every import of
murkrow is listed on chatlab's public surface, the subset is strict, and
murkrow's own `__all__` additionally lists `narrate`, `user` and `assistant`
without binding them at module level. -/
theorem murkrow_reexports_subset :
    murkrowImports.all (fun p => chatlabImports.contains p) = true ∧
    murkrowImports.all
      (fun p => chatlabAll.contains p.1 && murkrowBound.contains p.1) = true ∧
    chatlabAll.any (fun n => !(murkrowBound.contains n)) = true ∧
    (["narrate", "user", "assistant"]).all
      (fun n => murkrowAll.contains n && !(murkrowBound.contains n)) = true := by
  decide

/-- C4: with no FunctionRegistry attached, when the model replies to
`submit` with a function-call directive, `submit` fails with
Misconfiguration and the sequence at the point of failure is exactly the
prior history plus the appended user message plus the function_call
directive — no function_result appended, no rollback of anything
appended. -/
theorem submit_misconfiguration_no_registry (client : List Message → Reply)
    (c : Conversation) (x nm a : String)
    (hreg : c.registry = none) (hmax : 0 < c.maxRounds)
    (hc : client (c.messages ++ [user x]) = Reply.fcall nm a) :
    (submit client c x).1.messages
        = c.messages ++ [user x, assistant_function_call nm a] ∧
    (submit client c x).2.2 = Except.error SubmitError.Misconfiguration ∧
    ∀ m ∈ (submit client c x).1.messages.drop c.messages.length,
      m.role ≠ Role.function_result := by
  cases hm : c.maxRounds with
  | zero => rw [hm] at hmax; exact absurd hmax (by simp)
  | succ n =>
    have h1 : (submit client c x).1.messages
        = c.messages ++ [user x, assistant_function_call nm a] := by
      simp only [submit, hm, hreg]
      simp [resolveLoop, hc]
    refine ⟨h1, ?_, ?_⟩
    · simp only [submit, hm, hreg]
      simp [resolveLoop, hc]
    · rw [h1, List.drop_left]
      intro m hmem
      simp only [List.mem_cons, List.not_mem_nil, or_false] at hmem
      rcases hmem with h | h
      · rw [h]; simp [user]
      · rw [h]; simp [assistant_function_call]

/-- C4 witness: on a Conversation with no registry, round limit 1 and a
client asking for the unregistered `mystery()`, `submit` fails with
Misconfiguration and the transcript holds exactly the seed, the user
message and the directive. -/
theorem submit_misconfiguration_witness :
    convNoReg.registry = none ∧ 0 < convNoReg.maxRounds ∧
    clientMystery (convNoReg.messages ++ [user "hi"]) = Reply.fcall "mystery" "" ∧
    ((submit clientMystery convNoReg "hi").1.messages
        = convNoReg.messages ++ [user "hi", assistant_function_call "mystery" ""] ∧
     (submit clientMystery convNoReg "hi").2.2
        = Except.error SubmitError.Misconfiguration ∧
     ∀ m ∈ (submit clientMystery convNoReg "hi").1.messages.drop
         convNoReg.messages.length,
       m.role ≠ Role.function_result) :=
  ⟨rfl, by decide, rfl,
   submit_misconfiguration_no_registry clientMystery convNoReg "hi" "mystery" ""
     rfl (by decide) rfl⟩

/-- C5: when the attached registry's resolution of a function-call directive
fails non-fatally (UnknownFunction, or a non-fatal ExecutionError), the
resolution loop does not raise: it appends the directive and a
function_result Message encoding the failure and continues with the
remaining rounds, producing exactly the continuation's transcript and
outcome; only a fatal ExecutionError surfaces as a raised failure. -/
theorem nonfatal_resolution_continues (client : List Message → Reply)
    (r : FunctionRegistry) (fuel : Nat) (msgs : List Message) (nm a : String)
    (hc : client msgs = Reply.fcall nm a) :
    (r.resolve nm a = ResolveOutcome.unknownFunction →
      (resolveLoop client (some r) (fuel+1) msgs).1
          = (resolveLoop client (some r) fuel
              (msgs ++ [assistant_function_call nm a,
                function_result nm (encodeFailure ResolveOutcome.unknownFunction)])).1 ∧
      (resolveLoop client (some r) (fuel+1) msgs).2.2
          = (resolveLoop client (some r) fuel
              (msgs ++ [assistant_function_call nm a,
                function_result nm (encodeFailure ResolveOutcome.unknownFunction)])).2.2) ∧
    (r.resolve nm a = ResolveOutcome.execError false →
      (resolveLoop client (some r) (fuel+1) msgs).1
          = (resolveLoop client (some r) fuel
              (msgs ++ [assistant_function_call nm a,
                function_result nm (encodeFailure (ResolveOutcome.execError false))])).1 ∧
      (resolveLoop client (some r) (fuel+1) msgs).2.2
          = (resolveLoop client (some r) fuel
              (msgs ++ [assistant_function_call nm a,
                function_result nm (encodeFailure (ResolveOutcome.execError false))])).2.2) ∧
    (r.resolve nm a = ResolveOutcome.execError true →
      (resolveLoop client (some r) (fuel+1) msgs).2.2
          = Except.error SubmitError.FatalExecution) := by
  refine ⟨fun hr => ⟨?_, ?_⟩, fun hr => ⟨?_, ?_⟩, fun hr => ?_⟩ <;>
    simp [resolveLoop, hc, hr, List.append_assoc]

/-- C5 witness: with a registry that reports UnknownFunction, the round at
fuel 1 appends the directive and the failure-encoding function_result and
equals the continuation of the loop at fuel 0. -/
theorem nonfatal_resolution_continues_witness :
    (resolveLoop clientCallG (some regUnknown) 1 [system "s"]).1
        = (resolveLoop clientCallG (some regUnknown) 0
            ([system "s"] ++ [assistant_function_call "g" "b",
              function_result "g" (encodeFailure ResolveOutcome.unknownFunction)])).1 ∧
    (resolveLoop clientCallG (some regUnknown) 1 [system "s"]).2.2
        = (resolveLoop clientCallG (some regUnknown) 0
            ([system "s"] ++ [assistant_function_call "g" "b",
              function_result "g" (encodeFailure ResolveOutcome.unknownFunction)])).2.2 :=
  (nonfatal_resolution_continues clientCallG regUnknown 0 [system "s"] "g" "b"
    rfl).1 rfl

lemma pairedFrom_append (ys : List Message) :
    ∀ (xs : List Message) (prev : Option Message),
      pairedFrom prev (xs ++ ys)
        = (pairedFrom prev xs && pairedFrom (lastCarry prev xs) ys) := by
  intro xs
  induction xs with
  | nil => intro prev; simp [pairedFrom, lastCarry]
  | cons m rest ih =>
    intro prev
    simp [pairedFrom, lastCarry, ih, Bool.and_assoc]

lemma pairedFrom_nonresult (prev : Option Message) (m : Message)
    (h : m.role ≠ Role.function_result) : pairedFrom prev [m] = true := by
  simp [pairedFrom, h]

lemma pairedFrom_call_result (prev : Option Message) (nm a v : String) :
    pairedFrom prev [assistant_function_call nm a, function_result nm v]
      = true := by
  simp [pairedFrom, assistant_function_call, function_result]

lemma paired_append_call_result (msgs : List Message) (nm a v : String)
    (h : resultsPaired msgs = true) :
    resultsPaired ((msgs ++ [assistant_function_call nm a])
      ++ [function_result nm v]) = true := by
  rw [resultsPaired] at h ⊢
  rw [List.append_assoc, List.singleton_append, pairedFrom_append, h]
  simp [pairedFrom_call_result]

lemma resolveLoop_preserves_paired (client : List Message → Reply)
    (reg : Option FunctionRegistry) :
    ∀ (fuel : Nat) (msgs : List Message),
      resultsPaired msgs = true →
      resultsPaired (resolveLoop client reg fuel msgs).1 = true := by
  intro fuel
  induction fuel with
  | zero => intro msgs h; simpa [resolveLoop] using h
  | succ n ih =>
    intro msgs h
    cases hc : client msgs with
    | text s =>
      simp only [resolveLoop, hc]
      rw [resultsPaired, pairedFrom_append]
      rw [resultsPaired] at h
      rw [h, pairedFrom_nonresult _ _ (by simp [assistant])]
      rfl
    | fcall nm a =>
      cases reg with
      | none =>
        simp only [resolveLoop, hc]
        rw [resultsPaired, pairedFrom_append]
        rw [resultsPaired] at h
        rw [h, pairedFrom_nonresult _ _ (by simp [assistant_function_call])]
        rfl
      | some r =>
        cases hr : r.resolve nm a with
        | ok v =>
          simp only [resolveLoop, hc, hr]
          exact ih _ (paired_append_call_result msgs nm a v h)
        | unknownFunction =>
          simp only [resolveLoop, hc, hr]
          exact ih _ (paired_append_call_result msgs nm a _ h)
        | execError fatal =>
          cases fatal with
          | true =>
            have hmsgs : (resolveLoop client (some r) (n+1) msgs).1
                = msgs ++ [assistant_function_call nm a] := by
              simp [resolveLoop, hc, hr]
            rw [hmsgs, resultsPaired, pairedFrom_append]
            rw [resultsPaired] at h
            rw [h, pairedFrom_nonresult _ _ (by simp [assistant_function_call])]
            rfl
          | false =>
            simp only [resolveLoop, hc, hr]
            exact ih _ (paired_append_call_result msgs nm a _ h)

/-- C7: if every function_result in the prior history directly follows a
function_call with the same function name, then after any `submit` call the
whole transcript still has that shape — each function_result appended by
the resolution loop immediately follows its directive and carries the same
function name, so every result can be associated round-trip with the call
that produced it. -/
theorem function_results_match_calls (client : List Message → Reply)
    (c : Conversation) (x : String)
    (h : resultsPaired c.messages = true) :
    resultsPaired (submit client c x).1.messages = true := by
  simp only [submit]
  apply resolveLoop_preserves_paired
  rw [resultsPaired, pairedFrom_append]
  rw [resultsPaired] at h
  rw [h, pairedFrom_nonresult _ _ (by simp [user])]
  rfl

/-- C7 witness: a run in which the model issues one `add` call that the
registry resolves before replying in plain text leaves a transcript in
which the function_result is directly paired with its directive. -/
theorem function_results_match_calls_witness :
    resultsPaired convPaired.messages = true ∧
    resultsPaired (submit clientOneCall convPaired "2+2?").1.messages = true :=
  ⟨by decide,
   function_results_match_calls clientOneCall convPaired "2+2?" (by decide)⟩

end Chatlab
